import Mathlib

/-!
Verification development for the `automatic-control` CARLA example
(src/automatic-control/src/main.rs).

The per-tick control loop of `main` is shallowly embedded over `ℚ`:
scalar fields of the Rust program (f32) become exact rationals, the
external math primitives supplied by `nalgebra` / `f32` (atan2, Euler
angle extraction of a quaternion, isometry composition) are passed in as
an explicit `MathPrims` record, and the simulator round-trips of one
loop iteration become an oracle record `TickInput` (the responses the
simulator gave on that iteration).  The side effects the loop performs
on the simulator are reified as an `Effect` trace, so that claims about
"how many reset / submit / tick calls happen on a tick" become claims
about that trace.
-/

namespace CarlaAuto

/-- `f32::consts::PI` of the Rust source, as the exact rational value of
the IEEE-754 single-precision constant (bit pattern 0x40490FDB). -/
def PI : ℚ := 13176795 / 4194304

/-- `f32::to_radians`: multiply by `PI / 180`. -/
def to_radians (x : ℚ) : ℚ := x * (PI / 180)

/-- `f32::to_degrees`: multiply by `180 / PI`. -/
def to_degrees (x : ℚ) : ℚ := x * (180 / PI)

/-- `nalgebra::Translation3` / 3-d vector with rational components. -/
structure Vec3 where
  x : ℚ
  y : ℚ
  z : ℚ
  deriving DecidableEq

/-- `nalgebra::UnitQuaternion`, kept as raw component data; the
trigonometric operations on it are external primitives (`MathPrims`). -/
structure Quat where
  qw : ℚ
  qx : ℚ
  qy : ℚ
  qz : ℚ
  deriving DecidableEq

/-- `nalgebra::Isometry3`: a translation and a rotation. -/
structure Transform where
  translation : Vec3
  rot : Quat
  deriving DecidableEq

/-- A CARLA road-network waypoint, of which the control loop only ever
reads the transform. -/
structure Waypoint where
  transform : Transform
  deriving DecidableEq

/-- `carla::rpc::VehicleAckermannControl`, the command submitted once
per tick. -/
structure VehicleAckermannControl where
  steer : ℚ
  steer_speed : ℚ
  speed : ℚ
  acceleration : ℚ
  jerk : ℚ
  deriving DecidableEq

/-- The external transcendental/geometric primitives the loop body
calls; they live in `nalgebra` / `f32` and are out of scope (spec §1),
so the embedding is parametric in them. -/
structure MathPrims where
  atan2 : ℚ → ℚ → ℚ
  eulerYaw : Quat → ℚ
  translateBy : Transform → Vec3 → Transform
  fromEulerYaw : ℚ → Quat

/-- The simulator responses received during one loop iteration
(`vehicle.transform()`, `map.waypoint(..)`, `curr_waypoint.next(1.0)`,
`physics_control.wheels[..].max_steer_angle`, `vehicle.velocity().norm()`). -/
structure TickInput where
  vehicleTransform : Transform
  nearestWaypoint : Option Waypoint
  successors : List Waypoint
  wheelMaxSteerAngles : List ℚ
  vehicleSpeedNorm : ℚ
  deriving DecidableEq

/-- The observable simulator calls one loop iteration makes. -/
inductive Effect where
  | setSpectator (t : Transform)
  | resetPose (target : Transform)
  | submitControl (c : VehicleAckermannControl)
  | advanceStep
  deriving DecidableEq

/-- The `start_point` isometry of `main`: translation
`(83.075226, 13.414804, 0.600000)`, rotation
`from_euler_angles(0, 0, (-179.84079).to_radians())`. -/
def start_point (m : MathPrims) : Transform :=
  ⟨⟨83075226 / 1000000, 13414804 / 1000000, 600000 / 1000000⟩,
   m.fromEulerYaw (to_radians (-(17984079 / 100000)))⟩

/-- The heading normalization of `main` (lines 109–115): a single ±2π
correction applied to the raw yaw offset. -/
def normalize_offset (offset : ℚ) : ℚ :=
  if offset ≥ PI then offset - PI * 2
  else if offset ≤ -PI then offset + PI * 2
  else offset

/-- `f32::clamp` as the Rust standard library defines it (for
`lo ≤ hi`): results below `lo` become `lo`, above `hi` become `hi`. -/
def clamp (x lo hi : ℚ) : ℚ :=
  if x < lo then lo else if x > hi then hi else x

/-- The steering ratio of `main` (line 129):
`(heading_offset / max_steer_angle).clamp(-1.0, 1.0)`. -/
def steer_of (heading_offset max_steer_angle : ℚ) : ℚ :=
  clamp (heading_offset / max_steer_angle) (-1) 1

/-- The steering speed of `main` (lines 133–139): deadband bang-bang
with deadband `3.0` degrees and fixed magnitude `0.1`. -/
def steer_speed_of (heading_offset : ℚ) : ℚ :=
  if |heading_offset| < 3 then 0
  else if heading_offset > 0 then 1 / 10
  else -(1 / 10)

/-- The acceleration gate of `main` (line 145):
`if vehicle_speed < 5.0 { 1.0 } else { 0.0 }`. -/
def acceleration_of (vehicle_speed : ℚ) : ℚ :=
  if vehicle_speed < 5 then 1 else 0

/-- The steering-limit query of `main` (lines 121–128): the maximum of
`wheel.max_steer_angle` over all wheels; `.expect(..)` on an empty
iterator panics with the diagnostic message, modelled as `Except.error`. -/
def max_steer_angle_of (wheels : List ℚ) : Except String ℚ :=
  match wheels.max? with
  | some v => Except.ok v
  | none => Except.error "Unable to obtain max steering angle from the vehicle"

/-- The heading offset of `main` (lines 102–117), in degrees. -/
def heading_offset_of (m : MathPrims) (dir : Vec3) (rot : Quat) : ℚ :=
  let current_yaw := m.eulerYaw rot
  let target_yaw := m.atan2 dir.y dir.x
  to_degrees (normalize_offset (target_yaw - current_yaw))

/-- The displacement vector of `main` (line 99):
`next_location.vector - vehicle_transform.translation.vector`. -/
def dir_of (i : TickInput) (next_waypoint : Waypoint) : Vec3 :=
  let next_location := next_waypoint.transform.translation
  let vehicle_location := i.vehicleTransform.translation
  ⟨next_location.x - vehicle_location.x,
   next_location.y - vehicle_location.y,
   next_location.z - vehicle_location.z⟩

/-- The `VehicleAckermannControl` value `main` assembles (lines
148–155) on a tick that resolved `next_waypoint` and obtained the
steering limit `max_steer_angle`: steer ratio, bang-bang steer speed,
`opts.target_speed * 10.0 / 36.0`, threshold acceleration, jerk `0.0`. -/
def control_of (m : MathPrims) (target_speed : ℚ) (i : TickInput)
    (next_waypoint : Waypoint) (max_steer_angle : ℚ) : VehicleAckermannControl :=
  let heading_offset := heading_offset_of m (dir_of i next_waypoint) i.vehicleTransform.rot
  ⟨steer_of heading_offset max_steer_angle,
   steer_speed_of heading_offset,
   target_speed * 10 / 36,
   acceleration_of i.vehicleSpeedNorm,
   0⟩

/-- One iteration of the `while !stop` loop body of `main` (lines
76–159), as a function from the simulator responses of that iteration
to the trace of simulator calls it makes.  `Except.error` models the
`expect` panic on a missing steering limit (the trace of an aborting
iteration is not retained, only that it aborts); the two `let ... else`
fallbacks reset the pose to `start_point` and `continue` (so they emit
no spectator update, no control command and no `world.tick()`). -/
def tick (m : MathPrims) (target_speed : ℚ) (i : TickInput) : Except String (List Effect) :=
  match i.nearestWaypoint with
  | none => Except.ok [Effect.resetPose (start_point m)]
  | some _curr_waypoint =>
    match i.successors.get? 0 with
    | none => Except.ok [Effect.resetPose (start_point m)]
    | some next_waypoint =>
      match max_steer_angle_of i.wheelMaxSteerAngles with
      | Except.error e => Except.error e
      | Except.ok max_steer_angle =>
        Except.ok [Effect.setSpectator (m.translateBy i.vehicleTransform ⟨-10, 0, 7⟩),
                   Effect.submitControl (control_of m target_speed i next_waypoint max_steer_angle),
                   Effect.advanceStep]

/-- Predicate: the effect is a pose reset. -/
def isResetPose : Effect → Bool
  | Effect.resetPose _ => true
  | _ => false

/-- Predicate: the effect is a control submission. -/
def isSubmitControl : Effect → Bool
  | Effect.submitControl _ => true
  | _ => false

/-- Predicate: the effect is a simulation step advance (`world.tick()`). -/
def isAdvanceStep : Effect → Bool
  | Effect.advanceStep => true
  | _ => false

/-- Number of `reset_pose` (`vehicle.set_transform`) calls in a trace. -/
def countResetPose (es : List Effect) : Nat := (es.filter isResetPose).length

/-- Number of `apply_ackermann_control` calls in a trace. -/
def countSubmitControl (es : List Effect) : Nat := (es.filter isSubmitControl).length

/-- Number of `world.tick()` calls in a trace. -/
def countAdvanceStep (es : List Effect) : Nat := (es.filter isAdvanceStep).length

/-- The world-level side effects of `main` beyond the loop body:
`world.apply_settings` (only the two fields `main` overrides matter:
`synchronous_mode` and `fixed_delta_seconds`) and the loop effects. -/
inductive ProgEffect where
  | applySettings (synchronous_mode : Bool) (fixed_delta_seconds : Option ℚ)
  | tickEffect (e : Effect)
  deriving DecidableEq

/-- The `while !stop` loop of `main`, run from tick index `k`: the stop
flag is read once at the top of each iteration (`stop.load`), and while
it is false the body `tick` runs on that iteration's simulator
responses.  `flag j` is the value the atomic stop flag holds at the top
of iteration `j`, `inputs j` the simulator responses of iteration `j`.
Fuel bounds the unrolling; a body panic propagates as `Except.error`. -/
def loopIter (m : MathPrims) (target_speed : ℚ) (inputs : Nat → TickInput)
    (flag : Nat → Bool) : Nat → Nat → Except String (List Effect)
  | 0, _ => Except.error "fuel exhausted"
  | fuel + 1, k =>
    if flag k then Except.ok []
    else
      match tick m target_speed (inputs k) with
      | Except.error e => Except.error e
      | Except.ok es =>
        match loopIter m target_speed inputs flag fuel (k + 1) with
        | Except.error e => Except.error e
        | Except.ok rest => Except.ok (es ++ rest)

/-- `main` around the loop: apply synchronous settings with
`fixed_delta_seconds = 0.05`, run the loop, restore asynchronous
free-running settings, return `Ok(())` (process exit code 0).  A panic
inside the loop aborts instead (`Except.error`). -/
def mainRun (m : MathPrims) (target_speed : ℚ) (inputs : Nat → TickInput)
    (flag : Nat → Bool) (fuel : Nat) : Except String (List ProgEffect × Int) :=
  match loopIter m target_speed inputs flag fuel 0 with
  | Except.error e => Except.error e
  | Except.ok es =>
    Except.ok (ProgEffect.applySettings true (some (1 / 20)) ::
               (es.map ProgEffect.tickEffect ++
                [ProgEffect.applySettings false none]), 0)

/-- A concrete instantiation of the external math primitives, used for
evaluating the embedding on concrete inputs. -/
def prims0 : MathPrims :=
  ⟨fun _ _ => 0, fun _ => 0, fun t _ => t, fun _ => ⟨1, 0, 0, 0⟩⟩

/-- The identity transform, as concrete test data. -/
def transform0 : Transform := ⟨⟨0, 0, 0⟩, ⟨1, 0, 0, 0⟩⟩

/-- A concrete waypoint one unit ahead along the x axis. -/
def w0 : Waypoint := ⟨⟨⟨1, 0, 0⟩, ⟨1, 0, 0, 0⟩⟩⟩

/-- A tick on which the nearest-waypoint query returns nothing. -/
def inputNoWp : TickInput := ⟨transform0, none, [], [], 0⟩

/-- A tick on which waypoint resolution succeeds but the successor
query returns an empty sequence. -/
def inputNoSucc : TickInput := ⟨transform0, some w0, [], [35], 0⟩

/-- A fully successful tick: nearest waypoint found, one successor,
one wheel with a 35-degree steering limit, vehicle at rest. -/
def inputWp : TickInput := ⟨transform0, some w0, [w0], [35], 0⟩

/-- A tick on which the steering-limit query fails: the wheel list of
the physics control is empty. -/
def inputNoWheels : TickInput := ⟨transform0, some w0, [w0], [], 0⟩

/-- The control loop is strictly positive about `PI`. -/
theorem PI_pos : (0:ℚ) < PI := by norm_num [PI]

/-- On a route-lookup failure (no nearest waypoint, or an empty
successor list) the loop body resets the pose to `start_point` and
performs nothing else on that iteration. -/
theorem tick_lookup_failure (m : MathPrims) (ts : ℚ) (i : TickInput)
    (h : i.nearestWaypoint = none ∨ i.successors = []) :
    tick m ts i = Except.ok [Effect.resetPose (start_point m)] := by
  obtain ⟨vt, nw, succ, wheels, sp⟩ := i
  rcases h with h | h
  · have h1 : nw = none := h
    subst h1
    rfl
  · have h1 : succ = [] := h
    subst h1
    cases nw <;> rfl

/-- Inversion for a non-panicking iteration: its trace is either the
lone pose reset of a lookup failure, or the
spectator-update / control-submission / step-advance triple of a
successful tick, with the submitted command given by `control_of`. -/
theorem tick_ok_inv (m : MathPrims) (ts : ℚ) (i : TickInput) (es : List Effect)
    (he : tick m ts i = Except.ok es) :
    es = [Effect.resetPose (start_point m)] ∨
    ∃ nx msa, i.successors.get? 0 = some nx ∧
      max_steer_angle_of i.wheelMaxSteerAngles = Except.ok msa ∧
      es = [Effect.setSpectator (m.translateBy i.vehicleTransform ⟨-10, 0, 7⟩),
            Effect.submitControl (control_of m ts i nx msa),
            Effect.advanceStep] := by
  obtain ⟨vt, nw, succ, wheels, sp⟩ := i
  cases nw with
  | none =>
    have h2 : (Except.ok [Effect.resetPose (start_point m)] : Except String (List Effect))
        = Except.ok es := he
    injection h2 with h3
    exact Or.inl h3.symm
  | some w =>
    unfold tick at he
    dsimp only at he
    rcases hsucc : succ.get? 0 with _ | nx <;> rw [hsucc] at he
    · injection he with h3
      exact Or.inl h3.symm
    · rcases hmsa : max_steer_angle_of wheels with e | msa <;> rw [hmsa] at he
      · exact absurd he (by simp)
      · injection he with h3
        exact Or.inr ⟨nx, msa, rfl, rfl, h3.symm⟩

/-- C3 counterexample: at θ1 = π and θ2 = 0 (both in [0, 2π)), the
single ±2π correction sends the difference π to −π, which is outside
the claimed half-open interval (−π, π]. -/
theorem C3_cex :
    (0 ≤ PI ∧ PI < 2 * PI) ∧ (0 ≤ (0:ℚ) ∧ (0:ℚ) < 2 * PI) ∧
    normalize_offset (PI - 0) = -PI ∧ ¬(-PI < normalize_offset (PI - 0)) := by
  norm_num [normalize_offset, PI]

/-- C3 (amended): for all θ1, θ2 in [0, 2π), the heading-error
normalization (a single ±2π correction applied to θ1 − θ2) yields a
result in the closed interval [−π, π]; the value −π is reached exactly
when θ1 − θ2 = π, so the half-open guarantee fails only there. -/
theorem C3_normalize_closed_range (θ1 θ2 : ℚ) (h1 : 0 ≤ θ1) (h2 : θ1 < 2 * PI)
    (h3 : 0 ≤ θ2) (h4 : θ2 < 2 * PI) :
    -PI ≤ normalize_offset (θ1 - θ2) ∧ normalize_offset (θ1 - θ2) ≤ PI := by
  have hπ := PI_pos
  unfold normalize_offset
  split_ifs with ha hb <;> constructor <;> linarith

/-- C3 witness: the amended range theorem applied at θ1 = θ2 = 0. -/
theorem C3_normalize_closed_range_witness :
    -PI ≤ normalize_offset (0 - 0) ∧ normalize_offset (0 - 0) ≤ PI :=
  C3_normalize_closed_range 0 0 le_rfl (by norm_num [PI]) le_rfl (by norm_num [PI])

/-- C5: the steering command is exactly
`clamp(heading_offset / max_steer_angle, −1, 1)` and hence lies in the
normalized actuation bound [−1, 1]; consequently every control command
a tick submits carries a steer value in [−1, 1]. -/
theorem C5_steer_clamped :
    (∀ heading_offset max_steer_angle : ℚ,
       steer_of heading_offset max_steer_angle
         = clamp (heading_offset / max_steer_angle) (-1) 1 ∧
       -1 ≤ steer_of heading_offset max_steer_angle ∧
       steer_of heading_offset max_steer_angle ≤ 1) ∧
    (∀ (m : MathPrims) (ts : ℚ) (i : TickInput) (es : List Effect),
       tick m ts i = Except.ok es →
       ∀ c, Effect.submitControl c ∈ es → -1 ≤ c.steer ∧ c.steer ≤ 1) := by
  have hb : ∀ x : ℚ, -1 ≤ clamp x (-1) 1 ∧ clamp x (-1) 1 ≤ 1 := by
    intro x
    unfold clamp
    split_ifs <;> constructor <;> linarith
  refine ⟨fun ho msa => ⟨rfl, (hb _).1, (hb _).2⟩, ?_⟩
  intro m ts i es he c hc
  rcases tick_ok_inv m ts i es he with h | ⟨nx, msa, _, _, h⟩
  · subst h
    simp at hc
  · subst h
    simp only [List.mem_cons, List.not_mem_nil, or_false] at hc
    rcases hc with hc | hc | hc
    · exact absurd hc (by simp)
    · have h4 : c = control_of m ts i nx msa := by injection hc
      subst h4
      exact ⟨(hb _).1, (hb _).2⟩
    · exact absurd hc (by simp)

/-- C5 witness: the clamp identity and bounds at heading offset 7 and
steering limit 2, and the tick-level steer bound on a concrete
successful tick. -/
theorem C5_steer_clamped_witness :
    (steer_of 7 2 = clamp (7 / 2) (-1) 1 ∧ -1 ≤ steer_of 7 2 ∧ steer_of 7 2 ≤ 1) ∧
    (-1 ≤ (control_of prims0 5 inputWp w0 35).steer ∧
     (control_of prims0 5 inputWp w0 35).steer ≤ 1) :=
  ⟨C5_steer_clamped.1 7 2,
   C5_steer_clamped.2 prims0 5 inputWp
     [Effect.setSpectator transform0,
      Effect.submitControl (control_of prims0 5 inputWp w0 35),
      Effect.advanceStep] rfl
     (control_of prims0 5 inputWp w0 35) (by simp)⟩

/-- C6: the steering-speed command is a deadband bang-bang: zero when
the absolute heading offset is below 3 degrees, the fixed rate +0.1
when the offset is at least 3, and −0.1 when it is at most −3. -/
theorem C6_steer_speed_bang_bang (heading_offset : ℚ) :
    (|heading_offset| < 3 → steer_speed_of heading_offset = 0) ∧
    (3 ≤ heading_offset → steer_speed_of heading_offset = 1 / 10) ∧
    (heading_offset ≤ -3 → steer_speed_of heading_offset = -(1 / 10)) := by
  unfold steer_speed_of
  refine ⟨fun h => by rw [if_pos h], fun h => ?_, fun h => ?_⟩
  · have h1 : ¬ |heading_offset| < 3 := by
      have := le_abs_self heading_offset
      rw [not_lt]
      linarith
    rw [if_neg h1, if_pos (by linarith)]
  · have h1 : ¬ |heading_offset| < 3 := by
      have := neg_le_abs heading_offset
      rw [not_lt]
      linarith
    rw [if_neg h1, if_neg (by linarith)]

/-- C6 witness: the bang-bang characterization applied at heading
offsets 1, 5 and −5. -/
theorem C6_steer_speed_bang_bang_witness :
    steer_speed_of 1 = 0 ∧ steer_speed_of 5 = 1 / 10 ∧ steer_speed_of (-5) = -(1 / 10) :=
  ⟨(C6_steer_speed_bang_bang 1).1 (by norm_num),
   (C6_steer_speed_bang_bang 5).2.1 (by norm_num),
   (C6_steer_speed_bang_bang (-5)).2.2 (by norm_num)⟩

/-- C7: for every non-negative measured speed, the acceleration gate is
1 below the 5.0 threshold and 0 at or above it, hence always an element
of {0, 1}. -/
theorem C7_acceleration_gate (current_speed : ℚ) (_h : 0 ≤ current_speed) :
    (current_speed < 5 → acceleration_of current_speed = 1) ∧
    (5 ≤ current_speed → acceleration_of current_speed = 0) ∧
    (acceleration_of current_speed = 0 ∨ acceleration_of current_speed = 1) := by
  unfold acceleration_of
  refine ⟨fun h1 => if_pos h1, fun h1 => if_neg (not_lt.mpr h1), ?_⟩
  split_ifs <;> simp

/-- C7 witness: the gate characterization applied at speeds 3 and 7. -/
theorem C7_acceleration_gate_witness :
    acceleration_of 3 = 1 ∧ acceleration_of 7 = 0 :=
  ⟨(C7_acceleration_gate 3 (by norm_num)).1 (by norm_num),
   (C7_acceleration_gate 7 (by norm_num)).2.1 (by norm_num)⟩

/-- C1 counterexample: on a successful tick with the configured target
speed 5, the submitted command's speed field is 25/18 (that is,
5 · 10/36, the km/h→m/s conversion), not the unmodified 5. -/
theorem C1_cex :
    tick prims0 5 inputWp =
      Except.ok [Effect.setSpectator transform0,
                 Effect.submitControl (control_of prims0 5 inputWp w0 35),
                 Effect.advanceStep] ∧
    (control_of prims0 5 inputWp w0 35).speed = 25 / 18 ∧
    (control_of prims0 5 inputWp w0 35).speed ≠ 5 :=
  ⟨rfl, by norm_num [control_of], by norm_num [control_of]⟩

/-- C1 (amended): every submitted command's speed field equals
`target_speed * 10 / 36` — the configured target speed rescaled by the
km/h→m/s factor — rather than `target_speed` unmodified. -/
theorem C1_speed_conversion (m : MathPrims) (ts : ℚ) (i : TickInput)
    (es : List Effect) (he : tick m ts i = Except.ok es)
    (c : VehicleAckermannControl) (hc : Effect.submitControl c ∈ es) :
    c.speed = ts * 10 / 36 := by
  rcases tick_ok_inv m ts i es he with h | ⟨nx, msa, _, _, h⟩
  · subst h
    simp at hc
  · subst h
    simp only [List.mem_cons, List.not_mem_nil, or_false] at hc
    rcases hc with hc | hc | hc
    · exact absurd hc (by simp)
    · have h4 : c = control_of m ts i nx msa := by injection hc
      subst h4
      rfl
    · exact absurd hc (by simp)

/-- C1 witness: the speed-conversion theorem applied to the concrete
successful tick. -/
theorem C1_speed_conversion_witness :
    (control_of prims0 5 inputWp w0 35).speed = 5 * 10 / 36 :=
  C1_speed_conversion prims0 5 inputWp
    [Effect.setSpectator transform0,
     Effect.submitControl (control_of prims0 5 inputWp w0 35),
     Effect.advanceStep] rfl
    (control_of prims0 5 inputWp w0 35) (by simp)

/-- C2 counterexample: on a tick whose nearest-waypoint query returns
nothing, the loop body resets the pose and `continue`s, so its trace
contains no step-advance (`world.tick()`) at all — the claim that the
simulation still advances exactly one fixed step on such a tick is
false. -/
theorem C2_cex :
    tick prims0 5 inputNoWp = Except.ok [Effect.resetPose (start_point prims0)] ∧
    countAdvanceStep [Effect.resetPose (start_point prims0)] = 0 :=
  ⟨rfl, rfl⟩

/-- C2 (amended): on every tick where waypoint resolution fails (no
nearest waypoint or empty successor set), the Driver requests exactly
one pose reset, issues no control command, and does not advance the
simulation step on that tick (`continue` skips `world.tick()`). -/
theorem C2_reset_skips_step (m : MathPrims) (ts : ℚ) (i : TickInput)
    (h : i.nearestWaypoint = none ∨ i.successors = []) :
    ∃ es, tick m ts i = Except.ok es ∧
      countResetPose es = 1 ∧ countSubmitControl es = 0 ∧ countAdvanceStep es = 0 :=
  ⟨[Effect.resetPose (start_point m)], tick_lookup_failure m ts i h, rfl, rfl, rfl⟩

/-- C2 witness: the amended reset behaviour on the concrete
no-nearest-waypoint tick. -/
theorem C2_reset_skips_step_witness :
    ∃ es, tick prims0 5 inputNoWp = Except.ok es ∧
      countResetPose es = 1 ∧ countSubmitControl es = 0 ∧ countAdvanceStep es = 0 :=
  C2_reset_skips_step prims0 5 inputNoWp (Or.inl rfl)

/-- C4: on every tick on which the nearest-waypoint query returns
nothing or the successor query returns an empty sequence, the trace
holds exactly one pose reset, its target is the configured start pose,
and no control command is submitted. -/
theorem C4_reset_exactly_once (m : MathPrims) (ts : ℚ) (i : TickInput)
    (h : i.nearestWaypoint = none ∨ i.successors = []) :
    ∃ es, tick m ts i = Except.ok es ∧
      countResetPose es = 1 ∧
      (∀ p, Effect.resetPose p ∈ es → p = start_point m) ∧
      countSubmitControl es = 0 := by
  refine ⟨[Effect.resetPose (start_point m)], tick_lookup_failure m ts i h, rfl, ?_, rfl⟩
  intro p hp
  simp only [List.mem_cons, List.not_mem_nil, or_false] at hp
  injection hp with h1

/-- C4 witness: the reset-once property on the concrete
empty-successor-set tick. -/
theorem C4_reset_exactly_once_witness :
    ∃ es, tick prims0 5 inputNoSucc = Except.ok es ∧
      countResetPose es = 1 ∧
      (∀ p, Effect.resetPose p ∈ es → p = start_point prims0) ∧
      countSubmitControl es = 0 :=
  C4_reset_exactly_once prims0 5 inputNoSucc (Or.inr rfl)

/-- C8: when the steering-limit query fails (the wheel list of the
vehicle's physics control is empty, so no maximum steering angle
exists), the iteration aborts with the `expect` diagnostic and never
produces a normal trace — no default steering limit is substituted. -/
theorem C8_missing_steer_limit_aborts (m : MathPrims) (ts : ℚ) (i : TickInput)
    (h1 : i.nearestWaypoint.isSome = true) (h2 : (i.successors.get? 0).isSome = true)
    (h3 : i.wheelMaxSteerAngles = []) :
    tick m ts i = Except.error "Unable to obtain max steering angle from the vehicle" ∧
    ∀ es, tick m ts i ≠ Except.ok es := by
  have hmain : tick m ts i = Except.error "Unable to obtain max steering angle from the vehicle" := by
    obtain ⟨vt, nw, succ, wheels, sp⟩ := i
    have hw : wheels = [] := h3
    subst hw
    cases nw with
    | none => simp at h1
    | some w =>
      unfold tick
      dsimp only
      rcases hsucc : succ.get? 0 with _ | nx
      · rw [hsucc] at h2
        simp at h2
      · rfl
  refine ⟨hmain, fun es hcon => ?_⟩
  rw [hmain] at hcon
  exact absurd hcon (by simp)

/-- C8 witness: the abort theorem applied to the concrete
empty-wheel-list tick. -/
theorem C8_missing_steer_limit_aborts_witness :
    tick prims0 5 inputNoWheels
      = Except.error "Unable to obtain max steering angle from the vehicle" ∧
    ∀ es, tick prims0 5 inputNoWheels ≠ Except.ok es :=
  C8_missing_steer_limit_aborts prims0 5 inputNoWheels rfl rfl rfl

/-- If the stop flag first reads true at the n-th tick-top after index
k, the loop run from k terminates normally, and every effect of its
trace was produced by one of the n iterations executed before the flag
was observed. -/
theorem loopIter_stops (m : MathPrims) (ts : ℚ) (inputs : Nat → TickInput)
    (flag : Nat → Bool) :
    ∀ n k fuel, n < fuel →
    (∀ j, j < n → flag (k + j) = false) → flag (k + n) = true →
    (∀ j, j < n → ∃ tes, tick m ts (inputs (k + j)) = Except.ok tes) →
    ∃ es, loopIter m ts inputs flag fuel k = Except.ok es ∧
      ∀ e ∈ es, ∃ j, j < n ∧ ∃ tes, tick m ts (inputs (k + j)) = Except.ok tes ∧ e ∈ tes := by
  intro n
  induction n with
  | zero =>
    intro k fuel hfuel _ hstop _
    obtain ⟨fp, rfl⟩ : ∃ fp, fuel = fp + 1 := ⟨fuel - 1, by omega⟩
    refine ⟨[], ?_, by simp⟩
    have hs : flag k = true := by simpa using hstop
    simp [loopIter, hs]
  | succ n ih =>
    intro k fuel hfuel hbefore hstop hok
    obtain ⟨fp, rfl⟩ : ∃ fp, fuel = fp + 1 := ⟨fuel - 1, by omega⟩
    have hk : flag k = false := by simpa using hbefore 0 (Nat.succ_pos n)
    obtain ⟨tes0, htes0⟩ := hok 0 (Nat.succ_pos n)
    have htes0k : tick m ts (inputs k) = Except.ok tes0 := by simpa using htes0
    obtain ⟨rest, hrest, hmem⟩ :=
      ih (k + 1) fp (by omega)
        (fun j hj => by
          have := hbefore (j + 1) (by omega)
          simpa [Nat.add_assoc, Nat.add_comm 1 j] using this)
        (by
          have := hstop
          simpa [Nat.add_assoc, Nat.add_comm 1 n] using this)
        (fun j hj => by
          obtain ⟨tes, htes⟩ := hok (j + 1) (by omega)
          exact ⟨tes, by simpa [Nat.add_assoc, Nat.add_comm 1 j] using htes⟩)
    refine ⟨tes0 ++ rest, ?_, ?_⟩
    · simp [loopIter, hk, htes0k, hrest]
    · intro e he
      rcases List.mem_append.mp he with he | he
      · exact ⟨0, Nat.succ_pos n, tes0, htes0, he⟩
      · obtain ⟨j, hj, tes, htes, hetes⟩ := hmem e he
        exact ⟨j + 1, by omega, tes,
          by simpa [Nat.add_assoc, Nat.add_comm 1 j] using htes, hetes⟩

/-- C9: once the stop flag is set (first observed true at tick-top n),
the loop terminates there; `main` then restores free-running settings
(`synchronous_mode = false`, no fixed delta) as its final world call
and returns exit code 0, and every control command in the whole trace
was produced by an iteration that began before the stop was observed. -/
theorem C9_stop_flag_terminates (m : MathPrims) (ts : ℚ) (inputs : Nat → TickInput)
    (flag : Nat → Bool) (n fuel : Nat) (hfuel : n < fuel)
    (hbefore : ∀ j, j < n → flag j = false) (hstop : flag n = true)
    (hok : ∀ j, j < n → ∃ tes, tick m ts (inputs j) = Except.ok tes) :
    ∃ es, loopIter m ts inputs flag fuel 0 = Except.ok es ∧
      mainRun m ts inputs flag fuel =
        Except.ok (ProgEffect.applySettings true (some (1 / 20)) ::
                   (es.map ProgEffect.tickEffect ++
                    [ProgEffect.applySettings false none]), 0) ∧
      ∀ e ∈ es, ∃ j, j < n ∧ ∃ tes, tick m ts (inputs j) = Except.ok tes ∧ e ∈ tes := by
  obtain ⟨es, hes, hmem⟩ :=
    loopIter_stops m ts inputs flag n 0 fuel hfuel
      (fun j hj => by simpa using hbefore j hj) (by simpa using hstop)
      (fun j hj => by simpa using hok j hj)
  refine ⟨es, hes, ?_, fun e he => by simpa using hmem e he⟩
  unfold mainRun
  rw [hes]

/-- C9 witness: a run whose stop flag is raised before tick-top 1, on a
stream of lookup-failure ticks; the loop stops after one iteration and
the settings are restored. -/
theorem C9_stop_flag_terminates_witness :
    ∃ es, loopIter prims0 5 (fun _ => inputNoWp) (fun k => decide (1 ≤ k)) 2 0 = Except.ok es ∧
      mainRun prims0 5 (fun _ => inputNoWp) (fun k => decide (1 ≤ k)) 2 =
        Except.ok (ProgEffect.applySettings true (some (1 / 20)) ::
                   (es.map ProgEffect.tickEffect ++
                    [ProgEffect.applySettings false none]), 0) ∧
      ∀ e ∈ es, ∃ j, j < 1 ∧ ∃ tes, tick prims0 5 inputNoWp = Except.ok tes ∧ e ∈ tes :=
  C9_stop_flag_terminates prims0 5 (fun _ => inputNoWp) (fun k => decide (1 ≤ k)) 1 2
    (by decide)
    (fun j hj => by
      have hj0 : j = 0 := by omega
      subst hj0
      decide)
    (by decide)
    (fun j hj => ⟨[Effect.resetPose (start_point prims0)], rfl⟩)

/-- C10: successor selection is deterministic-first — the tick outcome
depends on the successor sequence only through its element 0, the tick
function is deterministic (identical simulator responses give an
identical trace, hence an identical submitted command), and every
submitted command carries jerk = 0. -/
theorem C10_deterministic_first (m : MathPrims) (ts : ℚ) (i : TickInput)
    (s : List Waypoint) (hs : i.successors.get? 0 = s.get? 0) :
    tick m ts i =
      tick m ts ⟨i.vehicleTransform, i.nearestWaypoint, s,
                 i.wheelMaxSteerAngles, i.vehicleSpeedNorm⟩ ∧
    (∀ i2 : TickInput, i = i2 → tick m ts i = tick m ts i2) ∧
    (∀ es, tick m ts i = Except.ok es →
       ∀ c, Effect.submitControl c ∈ es → c.jerk = 0) := by
  refine ⟨?_, fun i2 h => by rw [h], ?_⟩
  · obtain ⟨vt, nw, succ, wheels, sp⟩ := i
    cases nw with
    | none => rfl
    | some w =>
      have hs2 : succ.get? 0 = s.get? 0 := hs
      unfold tick
      dsimp only
      rw [hs2]
      rcases s.get? 0 with _ | nx
      · rfl
      · rcases max_steer_angle_of wheels with e | msa
        · rfl
        · rfl
  · intro es he c hc
    rcases tick_ok_inv m ts i es he with h | ⟨nx, msa, _, _, h⟩
    · subst h
      simp at hc
    · subst h
      simp only [List.mem_cons, List.not_mem_nil, or_false] at hc
      rcases hc with hc | hc | hc
      · exact absurd hc (by simp)
      · have h4 : c = control_of m ts i nx msa := by injection hc
        subst h4
        rfl
      · exact absurd hc (by simp)

/-- C10 witness: applied to the concrete successful tick and a
successor list agreeing at element 0. -/
theorem C10_deterministic_first_witness :
    tick prims0 5 inputWp =
      tick prims0 5 ⟨transform0, some w0, [w0, w0], [35], 0⟩ ∧
    (∀ i2 : TickInput, inputWp = i2 → tick prims0 5 inputWp = tick prims0 5 i2) ∧
    (∀ es, tick prims0 5 inputWp = Except.ok es →
       ∀ c, Effect.submitControl c ∈ es → c.jerk = 0) :=
  C10_deterministic_first prims0 5 inputWp [w0, w0] rfl

end CarlaAuto
